import Mathlib

/-!
Shallow embedding of the off-chain Solana client SDK
(`sdk-off-chain/src/verifier_admin_client.rs` and
`sdk-off-chain/src/access_controller_client.rs`).

The RPC transport (`RpcClient`), signing, and on-ledger programs are external
collaborators; they are modelled as oracles (`Transport`) whose responses are
universally quantified in the theorems.  Rust panics (`expect`, `unwrap`,
`unreachable!`, slice-index failure) are modelled as an explicit `panicked`
outcome, distinct from the `Result` values `ok`/`err`.
-/

/-- Account reference (32-byte public key), abstracted to a natural number. -/
abbrev Pubkey := Nat

/-- Transaction signature, abstracted to a natural number. -/
abbrev Signature := Nat

/-- Raw account data bytes fetched from the ledger. -/
abbrev AccountData := List Nat

/-- Errors surfaced by the RPC transport layer (`ClientError` in the source). -/
inductive ClientError
  | accountNotFound
  | transportError (msg : String)
  | rpcRequestError (msg : String)
  | remoteRejection (msg : String)
deriving DecidableEq, Repr

/-- The observable result of running one client operation: a returned `Ok`
value, a returned `Err` value, or a Rust panic (process abort). -/
inductive Outcome (α : Type)
  | ok (a : α)
  | err (e : ClientError)
  | panicked (msg : String)
deriving DecidableEq, Repr

/-- An outcome is a `Result` value handed back to the caller (not a panic). -/
def Outcome.isResult {α : Type} : Outcome α → Bool
  | .ok _ => true
  | .err _ => false
  | .panicked _ => false

/-- An outcome that the caller receives at all, i.e. not a panic. -/
def Outcome.returnsToCaller {α : Type} : Outcome α → Bool
  | .panicked _ => false
  | _ => true

/-- One network round trip made through the RPC transport. -/
inductive RpcCall
  | getAccount
  | getLatestBlockhash
  | sendTransaction
deriving DecidableEq, Repr

/-- A single typed instruction: target program, ordered account references,
and the serialized payload bytes. -/
structure Instruction where
  program_id : Pubkey
  accounts : List Pubkey
  data : List Nat
deriving DecidableEq, Repr

/-- The transport oracle: responses of the external RPC collaborator.
`getAccount` answers the (single) account fetch, `getLatestBlockhash` the
blockhash fetch inside `send_transaction`, and `sendAndConfirm` the
submission of a signed transaction carrying the given instruction. -/
structure Transport where
  getAccount : Except ClientError AccountData
  getLatestBlockhash : Except ClientError Nat
  sendAndConfirm : Instruction → Except ClientError Signature

/-- Client configuration of `VerifierAdminClient` (immutable after `new`). -/
structure VerifierAdminClient where
  program_id : Pubkey
  verifier_data_account : Pubkey
  access_controller_data_account : Option Pubkey
  payer : Pubkey
deriving DecidableEq, Repr

/-- Client configuration of `AccessControllerClient`. -/
structure AccessControllerClient where
  program_id : Pubkey
  access_controller_data_account : Pubkey
  payer : Pubkey
deriving DecidableEq, Repr

/-- `send_transaction` (both clients): fetch the latest blockhash (propagating
a transport error with `?`), sign, and submit.  Returns the outcome together
with the list of network calls actually performed. -/
def send_transaction (tr : Transport) (inst : Instruction) :
    Outcome Signature × List RpcCall :=
  match tr.getLatestBlockhash with
  | .error e => (.err e, [.getLatestBlockhash])
  | .ok _ =>
    match tr.sendAndConfirm inst with
    | .error e => (.err e, [.getLatestBlockhash, .sendTransaction])
    | .ok sig => (.ok sig, [.getLatestBlockhash, .sendTransaction])

/-- The `usize → u32` cast performed by `realloc` (`len as u32`): reduction
modulo `2^32`, silently truncating, never failing. -/
def castUsizeToU32 (len : Nat) : Nat := len % 2 ^ 32

/-- Modelled from the spec: the Borsh serialization that
`InstructionData::data()` (Anchor-generated, outside the source files)
applies to the `_len : u32` field — §6 fixes fixed-width little-endian
encoding for scalar fields. -/
def u32LeBytes (n : Nat) : List Nat :=
  [n % 256, n / 256 % 256, n / 256 ^ 2 % 256, n / 256 ^ 3 % 256]

/-- Decode four little-endian bytes back into the `u32` value they encode. -/
def decodeU32Le : List Nat → Nat
  | [b0, b1, b2, b3] => b0 + 256 * b1 + 256 ^ 2 * b2 + 256 ^ 3 * b3
  | _ => 0

/-- The instruction built by `realloc`: 8-byte instruction discriminator
(`disc`, fixed by the on-ledger program's IDL) followed by the `u32`-cast
length, little-endian. -/
def reallocInstruction (cfg : VerifierAdminClient) (program_data : Pubkey)
    (disc : List Nat) (len : Nat) : Instruction :=
  { program_id := cfg.program_id
    accounts := [cfg.verifier_data_account, cfg.payer, cfg.program_id,
                 program_data]
    data := disc ++ u32LeBytes (castUsizeToU32 len) }

/-- `realloc(len)`: builds one growth instruction requesting the account be
resized to exactly `len` bytes and submits it via `send_transaction`. -/
def realloc (cfg : VerifierAdminClient) (program_data : Pubkey)
    (disc : List Nat) (tr : Transport) (len : Nat) :
    Outcome Signature × List RpcCall :=
  send_transaction tr (reallocInstruction cfg program_data disc len)

/-- The growth step of `realloc_full_size`:
`current_size = std::cmp::min(current_size + REALLOC_INCREMENT, target_size)`
with `REALLOC_INCREMENT = 10 * 1024`. -/
def growthStep (target current : Nat) : Nat := min (current + 10240) target

/-- The `while current_size < target_size` loop of `realloc_full_size`.
Returns the outcome, the network calls performed, and the list of sizes
requested (one `realloc` call per entry, in order).  Falling out of the loop
without returning reaches the source's `unreachable!(..)`, a panic. -/
def reallocLoop (cfg : VerifierAdminClient) (program_data : Pubkey)
    (disc : List Nat) (tr : Transport) (target current : Nat) :
    Outcome Signature × List RpcCall × List Nat :=
  if h : current < target then
    let next := growthStep target current
    let r := realloc cfg program_data disc tr next
    match r.1 with
    | .err e => (.err e, r.2, [next])
    | .panicked m => (.panicked m, r.2, [next])
    | .ok sig =>
      if target ≤ next then (.ok sig, r.2, [next])
      else
        let rest := reallocLoop cfg program_data disc tr target next
        (rest.1, r.2 ++ rest.2.1, next :: rest.2.2)
  else
    (.panicked "internal error: entered unreachable code: Loop must either return a signature or propagate an error", [], [])
termination_by target - current
decreasing_by
  simp only [growthStep] at *
  omega

/-- `realloc_full_size`: computes the fixed target size, reads the account's
current byte length once (panicking via `expect` if the fetch fails), then
runs the growth loop. `target` stands for
`ACCOUNT_DISCRIMINATOR_SIZE + size_of::<VerifierAccount>()`. -/
def realloc_full_size (cfg : VerifierAdminClient) (program_data : Pubkey)
    (disc : List Nat) (tr : Transport) (target : Nat) :
    Outcome Signature × List RpcCall × List Nat :=
  match tr.getAccount with
  | .error _ => (.panicked "Failed to get verifier account from RPC", [.getAccount], [])
  | .ok data =>
    let r := reallocLoop cfg program_data disc tr target data.length
    (r.1, .getAccount :: r.2.1, r.2.2)

/-- The pure sequence of sizes the growth step requests when started at
`current` toward `target` (the loop's requested sizes when every submission
succeeds). -/
def reallocSizes (target current : Nat) : List Nat :=
  if h : current < target then
    let next := growthStep target current
    if target ≤ next then [next]
    else next :: reallocSizes target next
  else []
termination_by target - current
decreasing_by
  simp only [growthStep] at *
  omega

/-- The sizes list is a chain in which every entry is obtained from the
previous one (seeded by `prev`) by the growth step toward `target`. -/
def isLocalChain (target : Nat) : Nat → List Nat → Bool
  | _, [] => true
  | prev, s :: rest => decide (s = growthStep target prev) && isLocalChain target s rest

theorem send_transaction_trace_no_getAccount (tr : Transport) (inst : Instruction) :
    RpcCall.getAccount ∉ (send_transaction tr inst).2 := by
  unfold send_transaction
  rcases tr.getLatestBlockhash with e | bh
  · simp
  · rcases tr.sendAndConfirm inst with e | sig <;> simp

theorem reallocLoop_trace_no_getAccount (cfg : VerifierAdminClient)
    (pd : Pubkey) (disc : List Nat) (tr : Transport) (target current : Nat) :
    RpcCall.getAccount ∉ (reallocLoop cfg pd disc tr target current).2.1 := by
  induction current using reallocLoop.induct cfg pd disc tr target with
  | case1 x hx next r e hr =>
    have hr' : (realloc cfg pd disc tr (growthStep target x)).1 = Outcome.err e := hr
    rw [reallocLoop]
    simp only [dif_pos hx]
    split
    · exact send_transaction_trace_no_getAccount tr _
    · exact send_transaction_trace_no_getAccount tr _
    · next sig heq => simp [hr'] at heq
  | case2 x hx next r m hr =>
    have hr' : (realloc cfg pd disc tr (growthStep target x)).1 = Outcome.panicked m := hr
    rw [reallocLoop]
    simp only [dif_pos hx]
    split
    · exact send_transaction_trace_no_getAccount tr _
    · exact send_transaction_trace_no_getAccount tr _
    · next sig heq => simp [hr'] at heq
  | case3 x hx next r sig hr hle =>
    have hle' : target ≤ growthStep target x := hle
    rw [reallocLoop]
    simp only [dif_pos hx]
    split
    · exact send_transaction_trace_no_getAccount tr _
    · exact send_transaction_trace_no_getAccount tr _
    · rw [if_pos hle']
      exact send_transaction_trace_no_getAccount tr _
  | case4 x hx next r sig hr hle ih =>
    have hle' : ¬ target ≤ growthStep target x := hle
    rw [reallocLoop]
    simp only [dif_pos hx]
    split
    · exact send_transaction_trace_no_getAccount tr _
    · exact send_transaction_trace_no_getAccount tr _
    · rw [if_neg hle']
      simp only [List.mem_append]
      push_neg
      exact ⟨send_transaction_trace_no_getAccount tr _, ih⟩
  | case5 x hx =>
    rw [reallocLoop]
    simp [hx]

theorem reallocLoop_sizes_chain (cfg : VerifierAdminClient)
    (pd : Pubkey) (disc : List Nat) (tr : Transport) (target current : Nat) :
    isLocalChain target current (reallocLoop cfg pd disc tr target current).2.2 = true := by
  induction current using reallocLoop.induct cfg pd disc tr target with
  | case1 x hx next r e hr =>
    have hr' : (realloc cfg pd disc tr (growthStep target x)).1 = Outcome.err e := hr
    rw [reallocLoop]
    simp only [dif_pos hx]
    split
    · simp [isLocalChain]
    · simp [isLocalChain]
    · next sig heq => simp [hr'] at heq
  | case2 x hx next r m hr =>
    have hr' : (realloc cfg pd disc tr (growthStep target x)).1 = Outcome.panicked m := hr
    rw [reallocLoop]
    simp only [dif_pos hx]
    split
    · simp [isLocalChain]
    · simp [isLocalChain]
    · next sig heq => simp [hr'] at heq
  | case3 x hx next r sig hr hle =>
    have hle' : target ≤ growthStep target x := hle
    rw [reallocLoop]
    simp only [dif_pos hx]
    split
    · simp [isLocalChain]
    · simp [isLocalChain]
    · rw [if_pos hle']
      simp [isLocalChain]
  | case4 x hx next r sig hr hle ih =>
    have hle' : ¬ target ≤ growthStep target x := hle
    have ih' : isLocalChain target (growthStep target x)
        (reallocLoop cfg pd disc tr target (growthStep target x)).2.2 = true := ih
    rw [reallocLoop]
    simp only [dif_pos hx]
    split
    · simp [isLocalChain]
    · simp [isLocalChain]
    · rw [if_neg hle']
      simp [isLocalChain, ih']
  | case5 x hx =>
    rw [reallocLoop]
    simp [hx, isLocalChain]

theorem reallocSizes_le (target current : Nat) :
    ∀ s ∈ reallocSizes target current, s ≤ target := by
  induction current using reallocSizes.induct target with
  | case1 x hx next hle =>
    have hle' : target ≤ growthStep target x := hle
    rw [reallocSizes]
    simp only [dif_pos hx, if_pos hle', List.mem_singleton]
    rintro s rfl
    simp only [growthStep]
    omega
  | case2 x hx next hnle ih =>
    have hnle' : ¬ target ≤ growthStep target x := hnle
    rw [reallocSizes]
    simp only [dif_pos hx, if_neg hnle', List.mem_cons]
    rintro s (rfl | hs)
    · simp only [growthStep]
      omega
    · exact ih s hs
  | case3 x hx =>
    rw [reallocSizes]
    simp [hx]

theorem reallocSizes_ne_nil (target current : Nat) (h : current < target) :
    reallocSizes target current ≠ [] := by
  rw [reallocSizes]
  simp only [dif_pos h]
  split <;> simp

theorem reallocSizes_getLast (target : Nat) : ∀ current, current < target →
    (reallocSizes target current).getLast? = some target := by
  intro current
  induction current using reallocSizes.induct target with
  | case1 x hx next hle =>
    intro _
    have hle' : target ≤ growthStep target x := hle
    have heq : growthStep target x = target := by
      simp only [growthStep] at *
      omega
    rw [reallocSizes]
    simp [dif_pos hx, if_pos hle', heq]
  | case2 x hx next hnle ih =>
    intro _
    have hnle' : ¬ target ≤ growthStep target x := hnle
    have hlt : growthStep target x < target := by omega
    obtain ⟨y, l, hyl⟩ :=
      List.exists_cons_of_ne_nil (reallocSizes_ne_nil target (growthStep target x) hlt)
    have ihx : (reallocSizes target (growthStep target x)).getLast? = some target := ih hlt
    rw [reallocSizes]
    simp only [dif_pos hx, if_neg hnle']
    rw [hyl] at ihx ⊢
    rwa [List.getLast?_cons_cons]
  | case3 x hx =>
    intro hlt
    omega

theorem reallocLoop_sizes_le (cfg : VerifierAdminClient)
    (pd : Pubkey) (disc : List Nat) (tr : Transport) (target current : Nat) :
    ∀ s ∈ (reallocLoop cfg pd disc tr target current).2.2, s ≤ target := by
  induction current using reallocLoop.induct cfg pd disc tr target with
  | case1 x hx next r e hr =>
    have hr' : (realloc cfg pd disc tr (growthStep target x)).1 = Outcome.err e := hr
    rw [reallocLoop]
    simp only [dif_pos hx]
    split
    · simp only [List.mem_singleton]
      rintro s rfl
      simp only [growthStep]
      omega
    · simp only [List.mem_singleton]
      rintro s rfl
      simp only [growthStep]
      omega
    · next sig heq => simp [hr'] at heq
  | case2 x hx next r m hr =>
    have hr' : (realloc cfg pd disc tr (growthStep target x)).1 = Outcome.panicked m := hr
    rw [reallocLoop]
    simp only [dif_pos hx]
    split
    · simp only [List.mem_singleton]
      rintro s rfl
      simp only [growthStep]
      omega
    · simp only [List.mem_singleton]
      rintro s rfl
      simp only [growthStep]
      omega
    · next sig heq => simp [hr'] at heq
  | case3 x hx next r sig hr hle =>
    have hle' : target ≤ growthStep target x := hle
    rw [reallocLoop]
    simp only [dif_pos hx]
    split
    · simp only [List.mem_singleton]
      rintro s rfl
      simp only [growthStep]
      omega
    · simp only [List.mem_singleton]
      rintro s rfl
      simp only [growthStep]
      omega
    · rw [if_pos hle']
      simp only [List.mem_singleton]
      rintro s rfl
      simp only [growthStep]
      omega
  | case4 x hx next r sig hr hle ih =>
    have hle' : ¬ target ≤ growthStep target x := hle
    have ih' : ∀ s ∈ (reallocLoop cfg pd disc tr target (growthStep target x)).2.2,
        s ≤ target := ih
    rw [reallocLoop]
    simp only [dif_pos hx]
    split
    · simp only [List.mem_singleton]
      rintro s rfl
      simp only [growthStep]
      omega
    · simp only [List.mem_singleton]
      rintro s rfl
      simp only [growthStep]
      omega
    · rw [if_neg hle']
      simp only [List.mem_cons]
      rintro s (rfl | hs)
      · simp only [growthStep]
        omega
      · exact ih' s hs
  | case5 x hx =>
    rw [reallocLoop]
    simp [hx]

theorem reallocLoop_step_final (target current next : Nat)
    {cfg : VerifierAdminClient} {pd : Pubkey} {disc : List Nat} {tr : Transport}
    {sig : Signature} {calls : List RpcCall}
    (h : current < target) (hg : growthStep target current = next)
    (hle : target ≤ next)
    (hr : realloc cfg pd disc tr next = (Outcome.ok sig, calls)) :
    reallocLoop cfg pd disc tr target current = (.ok sig, calls, [next]) := by
  subst hg
  rw [reallocLoop]
  simp only [dif_pos h, hr, if_pos hle]

theorem reallocLoop_step_ok (target current next : Nat)
    {cfg : VerifierAdminClient} {pd : Pubkey} {disc : List Nat} {tr : Transport}
    {sig : Signature} {calls : List RpcCall}
    (h : current < target) (hg : growthStep target current = next)
    (hnle : ¬ target ≤ next)
    (hr : realloc cfg pd disc tr next = (Outcome.ok sig, calls)) :
    reallocLoop cfg pd disc tr target current =
      ((reallocLoop cfg pd disc tr target next).1,
       calls ++ (reallocLoop cfg pd disc tr target next).2.1,
       next :: (reallocLoop cfg pd disc tr target next).2.2) := by
  subst hg
  rw [reallocLoop]
  simp only [dif_pos h, hr, if_neg hnle]

theorem realloc_full_size_eq_ok (target : Nat)
    {cfg : VerifierAdminClient} {pd : Pubkey} {disc : List Nat} {tr : Transport}
    {data : AccountData} (hga : tr.getAccount = .ok data) :
    realloc_full_size cfg pd disc tr target =
      ((reallocLoop cfg pd disc tr target data.length).1,
       .getAccount :: (reallocLoop cfg pd disc tr target data.length).2.1,
       (reallocLoop cfg pd disc tr target data.length).2.2) := by
  unfold realloc_full_size
  rw [hga]

theorem realloc_full_size_eq_expect_panic (target : Nat)
    {cfg : VerifierAdminClient} {pd : Pubkey} {disc : List Nat} {tr : Transport}
    {e : ClientError} (hga : tr.getAccount = .error e) :
    realloc_full_size cfg pd disc tr target =
      (.panicked "Failed to get verifier account from RPC", [.getAccount], []) := by
  unfold realloc_full_size
  rw [hga]

/-- A concrete client configuration used for closed-instance theorems. -/
def cfgW : VerifierAdminClient :=
  { program_id := 1, verifier_data_account := 2,
    access_controller_data_account := some 3, payer := 4 }

/-- A concrete 8-byte instruction discriminator used for closed instances. -/
def discW : List Nat := [0, 0, 0, 0, 0, 0, 0, 0]

/-- A transport reporting an empty (0-byte) verifier account and accepting
every submission. -/
def trFromEmpty : Transport :=
  { getAccount := .ok []
    getLatestBlockhash := .ok 0
    sendAndConfirm := fun _ => .ok 0 }

/-- A transport reporting a verifier account already at 25000 bytes. -/
def trAlreadyFull : Transport :=
  { getAccount := .ok (List.replicate 25000 0)
    getLatestBlockhash := .ok 0
    sendAndConfirm := fun _ => .ok 0 }

/-- C1: for every starting size `current` and target `target` with
`current ≤ target`, the growth step `min (current + 10240) target` of
`realloc_full_size` never requests a size exceeding `target` (both for the
pure step sequence and for the sizes the loop actually submits, whatever the
transport answers), and the final requested size equals `target` exactly. -/
theorem growth_steps_never_overshoot_and_end_exact
    (cfg : VerifierAdminClient) (pd : Pubkey) (disc : List Nat) (tr : Transport)
    (target current : Nat) (h : current ≤ target) :
    (∀ s ∈ reallocSizes target current, s ≤ target) ∧
    (current < target → (reallocSizes target current).getLast? = some target) ∧
    (∀ s ∈ (reallocLoop cfg pd disc tr target current).2.2, s ≤ target) :=
  ⟨reallocSizes_le target current,
   fun hlt => reallocSizes_getLast target current hlt,
   reallocLoop_sizes_le cfg pd disc tr target current⟩

/-- Witness for C1 at `current = 0`, `target = 25000`. -/
theorem growth_steps_never_overshoot_and_end_exact_witness :
    (∀ s ∈ reallocSizes 25000 0, s ≤ 25000) ∧
    (0 < 25000 → (reallocSizes 25000 0).getLast? = some 25000) ∧
    (∀ s ∈ (reallocLoop cfgW 5 discW trFromEmpty 25000 0).2.2, s ≤ 25000) :=
  growth_steps_never_overshoot_and_end_exact cfgW 5 discW trFromEmpty 25000 0 (by decide)

/-- C2: growing from a 0-byte account toward a 25000-byte target with the
10240-byte increment issues exactly 3 realloc submissions, with requested
sizes 10240, 20480, 25000 in that order, and returns the final signature. -/
theorem growth_scenario_0_to_25000 :
    realloc_full_size cfgW 5 discW trFromEmpty 25000 =
      (.ok 0,
       [.getAccount, .getLatestBlockhash, .sendTransaction, .getLatestBlockhash,
        .sendTransaction, .getLatestBlockhash, .sendTransaction],
       [10240, 20480, 25000]) ∧
    (realloc_full_size cfgW 5 discW trFromEmpty 25000).2.2.length = 3 := by
  have e1 : reallocLoop cfgW 5 discW trFromEmpty 25000 20480 =
      (.ok 0, [.getLatestBlockhash, .sendTransaction], [25000]) :=
    reallocLoop_step_final 25000 20480 25000 (by decide) (by decide) (by decide) rfl
  have e2 : reallocLoop cfgW 5 discW trFromEmpty 25000 10240 =
      (.ok 0, [.getLatestBlockhash, .sendTransaction, .getLatestBlockhash, .sendTransaction],
       [20480, 25000]) := by
    rw [reallocLoop_step_ok 25000 10240 20480 (by decide) (by decide) (by decide)
      (show realloc cfgW 5 discW trFromEmpty 20480 =
        (Outcome.ok 0, [.getLatestBlockhash, .sendTransaction]) from rfl), e1]
    rfl
  have e3 : reallocLoop cfgW 5 discW trFromEmpty 25000 0 =
      (.ok 0, [.getLatestBlockhash, .sendTransaction, .getLatestBlockhash, .sendTransaction,
       .getLatestBlockhash, .sendTransaction], [10240, 20480, 25000]) := by
    rw [reallocLoop_step_ok 25000 0 10240 (by decide) (by decide) (by decide)
      (show realloc cfgW 5 discW trFromEmpty 10240 =
        (Outcome.ok 0, [.getLatestBlockhash, .sendTransaction]) from rfl), e2]
    rfl
  have e4 : realloc_full_size cfgW 5 discW trFromEmpty 25000 =
      (.ok 0,
       [.getAccount, .getLatestBlockhash, .sendTransaction, .getLatestBlockhash,
        .sendTransaction, .getLatestBlockhash, .sendTransaction],
       [10240, 20480, 25000]) := by
    rw [realloc_full_size_eq_ok 25000 (show trFromEmpty.getAccount = .ok [] from rfl)]
    rw [show ([] : AccountData).length = 0 from rfl, e3]
  exact ⟨e4, by simp [e4]⟩

/-- C3 (code bug): when the transport reports an account already at (or
above) the full target size, `realloc_full_size` skips the loop entirely and
executes the `unreachable!()` after it — a panic, not a returned result —
contradicting both the spec's resumability requirement and the
`unreachable!` message's own assertion. -/
theorem realloc_full_size_panics_when_account_already_full :
    realloc_full_size cfgW 5 discW trAlreadyFull 25000 =
      (.panicked "internal error: entered unreachable code: Loop must either return a signature or propagate an error",
       [.getAccount], []) := by
  rw [realloc_full_size_eq_ok 25000
    (show trAlreadyFull.getAccount = .ok (List.replicate 25000 0) from rfl)]
  rw [show (List.replicate 25000 (0 : Nat)).length = 25000 from by
    rw [List.length_replicate]]
  rw [reallocLoop]
  simp

/-- C7: `realloc_full_size` consults the transport's account fetch exactly
once (also when the fetch fails), and every subsequently requested size is
computed locally: the requested-size list is a chain seeded by the fetched
length in which each entry is the growth step of the previous one. -/
theorem realloc_full_size_reads_size_once (cfg : VerifierAdminClient)
    (pd : Pubkey) (disc : List Nat) (tr : Transport) (target : Nat) :
    ((realloc_full_size cfg pd disc tr target).2.1.count RpcCall.getAccount = 1) ∧
    (∀ data, tr.getAccount = .ok data →
      isLocalChain target data.length (realloc_full_size cfg pd disc tr target).2.2 = true) := by
  constructor
  · unfold realloc_full_size
    split
    · simp
    · next data heq =>
      have hno := reallocLoop_trace_no_getAccount cfg pd disc tr target data.length
      simp [List.count_cons, List.count_eq_zero.mpr hno]
  · intro data hdata
    unfold realloc_full_size
    rw [hdata]
    exact reallocLoop_sizes_chain cfg pd disc tr target data.length

/-- Witness for C7 on a transport reporting an empty account. -/
theorem realloc_full_size_reads_size_once_witness :
    ((realloc_full_size cfgW 5 discW trFromEmpty 25000).2.1.count RpcCall.getAccount = 1) ∧
    isLocalChain 25000 ([] : AccountData).length
      (realloc_full_size cfgW 5 discW trFromEmpty 25000).2.2 = true :=
  ⟨(realloc_full_size_reads_size_once cfgW 5 discW trFromEmpty 25000).1,
   (realloc_full_size_reads_size_once cfgW 5 discW trFromEmpty 25000).2 [] rfl⟩

/-- `compute_report_config_pda`: takes `&report[..32]` as the PDA seed —
Rust slice indexing that panics when the report is shorter than 32 bytes —
and derives the address with `Pubkey::find_program_address` (`fpa`, an
external one-way derivation primitive passed as an oracle). -/
def compute_report_config_pda (fpa : List (List Nat) → Pubkey → Pubkey)
    (cfg : VerifierAdminClient) (report : List Nat) : Outcome Pubkey :=
  if report.length < 32 then
    .panicked "range end index 32 out of range"
  else
    .ok (fpa [report.take 32] cfg.program_id)

/-- Modelled from the spec: the `VerifierInstructions::verify` builder of
the `data_streams_solana_verifier_sdk` crate is not under the two source
files; per §4.2 it assembles one instruction referencing the verifier
account, the access controller, the payer and the derived per-feed config
account, and embeds the compressed report. -/
def verifyInstruction (program_id verifier_account access_controller payer
    config_account : Pubkey) (compressed_report : List Nat) : Instruction :=
  { program_id := program_id
    accounts := [verifier_account, access_controller, payer, config_account]
    data := compressed_report }

/-- `verify(signed_report)`: requires the access-controller reference
(`ok_or_else`, failing with an `RpcRequestError` before anything else),
derives the per-feed config PDA from the report's first 32 bytes, compresses
the report (`Compressor::compress`, an external primitive passed as an
oracle) and submits one instruction. -/
def verify (fpa : List (List Nat) → Pubkey → Pubkey)
    (compress : List Nat → List Nat) (cfg : VerifierAdminClient)
    (tr : Transport) (signed_report : List Nat) :
    Outcome Signature × List RpcCall :=
  match cfg.access_controller_data_account with
  | none => (.err (.rpcRequestError "AccessController is required for verification"), [])
  | some access_controller =>
    match compute_report_config_pda fpa cfg signed_report with
    | .panicked m => (.panicked m, [])
    | .err e => (.err e, [])
    | .ok config_account =>
      let compressed_report := compress signed_report
      send_transaction tr
        (verifyInstruction cfg.program_id cfg.verifier_data_account
          access_controller cfg.payer config_account compressed_report)

theorem send_transaction_returns (tr : Transport) (inst : Instruction) :
    (send_transaction tr inst).1.returnsToCaller = true := by
  unfold send_transaction
  split
  · rfl
  · split <;> rfl

/-- C6: whenever the client's access-controller reference is `None`,
`verify` returns the precondition error and performs no network call at all
(the call trace is empty: neither the blockhash fetch nor a submission
happens), for every report and every transport. -/
theorem verify_without_registry_fails_fast
    (fpa : List (List Nat) → Pubkey → Pubkey) (compress : List Nat → List Nat)
    (cfg : VerifierAdminClient) (tr : Transport) (report : List Nat)
    (h : cfg.access_controller_data_account = none) :
    verify fpa compress cfg tr report =
      (.err (.rpcRequestError "AccessController is required for verification"), []) := by
  unfold verify
  rw [h]

/-- A client configuration with no access-controller reference. -/
def cfgNoAC : VerifierAdminClient :=
  { program_id := 1, verifier_data_account := 2,
    access_controller_data_account := none, payer := 4 }

/-- A concrete PDA-derivation oracle for closed instances. -/
def fpaW : List (List Nat) → Pubkey → Pubkey := fun _ _ => 7

/-- A concrete compression oracle for closed instances. -/
def compressW : List Nat → List Nat := fun l => l

/-- Witness for C6 with a concrete unconfigured client. -/
theorem verify_without_registry_fails_fast_witness :
    verify fpaW compressW cfgNoAC trFromEmpty [1, 2, 3] =
      (.err (.rpcRequestError "AccessController is required for verification"), []) :=
  verify_without_registry_fails_fast fpaW compressW cfgNoAC trFromEmpty [1, 2, 3] rfl

/-- C9: with a registry reference configured, `verify` panics on every
signed report shorter than 32 bytes (the unchecked `&report[..32]` slice in
`compute_report_config_pda`), and never panics once the report has at least
32 bytes: it is total only under that precondition. -/
theorem verify_panics_on_short_report
    (fpa : List (List Nat) → Pubkey → Pubkey) (compress : List Nat → List Nat)
    (cfg : VerifierAdminClient) (tr : Transport) (report : List Nat)
    (a : Pubkey) (hac : cfg.access_controller_data_account = some a) :
    (report.length < 32 →
      verify fpa compress cfg tr report =
        (.panicked "range end index 32 out of range", [])) ∧
    (32 ≤ report.length →
      (verify fpa compress cfg tr report).1.returnsToCaller = true) := by
  constructor
  · intro hlen
    unfold verify
    rw [hac]
    unfold compute_report_config_pda
    rw [if_pos hlen]
  · intro hlen
    unfold verify
    rw [hac]
    unfold compute_report_config_pda
    rw [if_neg (by omega)]
    exact send_transaction_returns tr _

/-- Witness for C9: a 3-byte report panics; a 32-byte report yields a
returned result. -/
theorem verify_panics_on_short_report_witness :
    verify fpaW compressW cfgW trFromEmpty [1, 2, 3] =
      (.panicked "range end index 32 out of range", []) ∧
    (verify fpaW compressW cfgW trFromEmpty (List.replicate 32 0)).1.returnsToCaller = true :=
  ⟨(verify_panics_on_short_report fpaW compressW cfgW trFromEmpty [1, 2, 3] 3 rfl).1
      (by decide),
   (verify_panics_on_short_report fpaW compressW cfgW trFromEmpty
      (List.replicate 32 0) 3 rfl).2 (by rw [List.length_replicate])⟩

/-- Modelled from the spec: `AccessController::try_deserialize` — the
account type and its Anchor decoder live outside the two source files, so
the decode contract follows §6 of the spec (an 8-byte type tag followed by
the fixed-layout schema, decoded strictly by that layout).  It succeeds only
when the buffer starts with the 8-byte account discriminator `disc` and the
remaining bytes cover the fixed `schemaSize`-byte schema, in which case it
returns exactly those schema bytes; any layout mismatch is a decode failure
(`none`). -/
def tryDeserializeAccessController (disc : List Nat) (schemaSize : Nat)
    (data : List Nat) : Option (List Nat) :=
  if data.take 8 = disc ∧ 8 + schemaSize ≤ data.length then
    some ((data.drop 8).take schemaSize)
  else none

/-- `read_access_controller_state`: fetches the account bytes (propagating a
transport/not-found error with `?`), then calls
`AccessController::try_deserialize(..).unwrap()` — the `unwrap` turns any
decode failure into a panic. -/
def read_access_controller_state (disc : List Nat) (schemaSize : Nat)
    (cfg : AccessControllerClient) (tr : Transport) :
    Outcome (List Nat) × List RpcCall :=
  match tr.getAccount with
  | .error e => (.err e, [.getAccount])
  | .ok data =>
    match tryDeserializeAccessController disc schemaSize data with
    | none => (.panicked "called Result::unwrap on an Err value", [.getAccount])
    | some state => (.ok state, [.getAccount])

/-- A concrete access-controller client configuration. -/
def accCfgW : AccessControllerClient :=
  { program_id := 1, access_controller_data_account := 2, payer := 4 }

/-- A concrete 8-byte account discriminator for closed instances. -/
def accDiscW : List Nat := [1, 1, 1, 1, 1, 1, 1, 1]

/-- A transport answering the account fetch with an empty byte buffer. -/
def trEmptyAccount : Transport :=
  { getAccount := .ok []
    getLatestBlockhash := .ok 0
    sendAndConfirm := fun _ => .ok 0 }

/-- Counterexample to C5: on a fetched buffer whose layout does not match
the schema (here: an empty buffer, so both the length and the discriminator
are wrong), `read_access_controller_state` panics via `unwrap` instead of
returning a decode error to the caller. -/
theorem read_access_controller_state_panics_on_bad_layout :
    read_access_controller_state accDiscW 2 accCfgW trEmptyAccount =
      (.panicked "called Result::unwrap on an Err value", [.getAccount]) := rfl

/-- C5 as amended: a layout mismatch makes `read_access_controller_state`
panic via `unwrap` (it still never returns a partially-populated structure:
the only non-panic outcomes are a propagated fetch error and a fully decoded
schema); a missing account is returned as the propagated not-found error. -/
theorem read_access_controller_state_amended (disc : List Nat)
    (schemaSize : Nat) (cfg : AccessControllerClient) (tr : Transport) :
    (∀ e, tr.getAccount = .error e →
      read_access_controller_state disc schemaSize cfg tr = (.err e, [.getAccount])) ∧
    (∀ data, tr.getAccount = .ok data →
      tryDeserializeAccessController disc schemaSize data = none →
      read_access_controller_state disc schemaSize cfg tr =
        (.panicked "called Result::unwrap on an Err value", [.getAccount])) ∧
    (∀ data state, tr.getAccount = .ok data →
      tryDeserializeAccessController disc schemaSize data = some state →
      read_access_controller_state disc schemaSize cfg tr = (.ok state, [.getAccount]) ∧
      state = (data.drop 8).take schemaSize) := by
  refine ⟨fun e he => ?_, fun data hd hnone => ?_, fun data state hd hsome => ?_⟩
  · unfold read_access_controller_state
    rw [he]
  · unfold read_access_controller_state
    simp only [hd, hnone]
  · constructor
    · unfold read_access_controller_state
      simp only [hd, hsome]
    · unfold tryDeserializeAccessController at hsome
      split at hsome
      · exact (Option.some.injEq _ _ ▸ hsome).symm
      · cases hsome

/-- Witness for C5 (amended): the three branches at concrete inputs — a
not-found fetch, an empty (mismatched) buffer, and a well-formed buffer. -/
theorem read_access_controller_state_amended_witness :
    (read_access_controller_state accDiscW 2 accCfgW
      { getAccount := .error .accountNotFound, getLatestBlockhash := .ok 0,
        sendAndConfirm := fun _ => .ok 0 } =
      (.err .accountNotFound, [.getAccount])) ∧
    (read_access_controller_state accDiscW 2 accCfgW trEmptyAccount =
      (.panicked "called Result::unwrap on an Err value", [.getAccount])) ∧
    (read_access_controller_state accDiscW 2 accCfgW
      { getAccount := .ok [1, 1, 1, 1, 1, 1, 1, 1, 9, 8], getLatestBlockhash := .ok 0,
        sendAndConfirm := fun _ => .ok 0 } =
      (.ok [9, 8], [.getAccount])) :=
  ⟨(read_access_controller_state_amended accDiscW 2 accCfgW _).1 .accountNotFound rfl,
   (read_access_controller_state_amended accDiscW 2 accCfgW trEmptyAccount).2.1 [] rfl
     (by decide),
   ((read_access_controller_state_amended accDiscW 2 accCfgW _).2.2
     [1, 1, 1, 1, 1, 1, 1, 1, 9, 8] [9, 8] rfl (by decide)).1⟩

/-- `get_account_size_requirement` of `AccessControllerClient`:
`size_of::<AccessController>() + 8`, with `sizeOfAccessController` standing
for the compile-time constant `size_of::<AccessController>()` of the
external schema crate.  The function takes no client state and no transport. -/
def AccessControllerClient.get_account_size_requirement
    (sizeOfAccessController : Nat) : Nat :=
  sizeOfAccessController + 8

/-- `get_account_size_requirement` of `VerifierAdminClient`:
`size_of::<VerifierAccount>() + 8`, analogously. -/
def VerifierAdminClient.get_account_size_requirement
    (sizeOfVerifierAccount : Nat) : Nat :=
  sizeOfVerifierAccount + 8

/-- C8: each client's `get_account_size_requirement` equals 8 plus the size
of its account schema type; it is a function of the compile-time schema size
alone — it takes no client state and no transport, so it cannot depend on
live account data — and it coincides with the target size
`ACCOUNT_DISCRIMINATOR_SIZE + size_of::<VerifierAccount>()` that
`realloc_full_size` computes. -/
theorem get_account_size_requirement_is_8_plus_schema
    (sizeOfAccessController sizeOfVerifierAccount : Nat) :
    AccessControllerClient.get_account_size_requirement sizeOfAccessController =
      8 + sizeOfAccessController ∧
    VerifierAdminClient.get_account_size_requirement sizeOfVerifierAccount =
      8 + sizeOfVerifierAccount := by
  unfold AccessControllerClient.get_account_size_requirement
    VerifierAdminClient.get_account_size_requirement
  omega

theorem decode_u32LeBytes (m : Nat) (h : m < 2 ^ 32) :
    decodeU32Le (u32LeBytes m) = m := by
  show m % 256 + 256 * (m / 256 % 256) + 256 ^ 2 * (m / 256 ^ 2 % 256) +
      256 ^ 3 * (m / 256 ^ 3 % 256) = m
  omega

/-- C10: the `realloc` instruction payload carries the requested length as
the `usize → u32` cast `len % 2^32` in the four bytes after the 8-byte
discriminator: for `len < 2^32` the encoded value is `len` itself, and for
any larger `len` it is `len mod 2^32`, silently truncated, with no error
branch anywhere in `realloc`'s encoding. -/
theorem realloc_len_encoded_mod_2_pow_32 (cfg : VerifierAdminClient)
    (pd : Pubkey) (disc : List Nat) (len : Nat) (hdisc : disc.length = 8) :
    decodeU32Le ((reallocInstruction cfg pd disc len).data.drop 8) = len % 2 ^ 32 ∧
    (len < 2 ^ 32 →
      decodeU32Le ((reallocInstruction cfg pd disc len).data.drop 8) = len) := by
  have hdrop : (reallocInstruction cfg pd disc len).data.drop 8 =
      u32LeBytes (castUsizeToU32 len) := by
    unfold reallocInstruction
    rw [← hdisc]
    exact List.drop_left disc _
  have hmain : decodeU32Le ((reallocInstruction cfg pd disc len).data.drop 8) =
      len % 2 ^ 32 := by
    rw [hdrop]
    unfold castUsizeToU32
    exact decode_u32LeBytes _ (Nat.mod_lt _ (by norm_num))
  exact ⟨hmain, fun hlt => by rw [hmain, Nat.mod_eq_of_lt hlt]⟩

/-- Witness for C10 at `len = 2^32 + 5` (truncated to 5) with an 8-byte
discriminator. -/
theorem realloc_len_encoded_mod_2_pow_32_witness :
    decodeU32Le ((reallocInstruction cfgW 5 discW 4294967301).data.drop 8) =
      4294967301 % 2 ^ 32 ∧
    (4294967301 < 2 ^ 32 →
      decodeU32Le ((reallocInstruction cfgW 5 discW 4294967301).data.drop 8) =
        4294967301) :=
  realloc_len_encoded_mod_2_pow_32 cfgW 5 discW 4294967301 rfl

/-- The fixed system-program id (`system_program::ID`), abstracted. -/
def system_program_id : Pubkey := 0

/-- `AccessControllerClient::initialize`: one instruction over the context
`Initialize { state, owner }`; `instData` stands for the external
`InstructionData::data()` serialization of the (empty) argument payload. -/
def AccessControllerClient.initialize_op (c : AccessControllerClient)
    (tr : Transport) (instData : List Nat) : Outcome Signature × List RpcCall :=
  send_transaction tr
    { program_id := c.program_id
      accounts := [c.access_controller_data_account, c.payer]
      data := instData }

/-- `AccessControllerClient::add_access`: context
`AddAccess { state, owner, address }`. -/
def AccessControllerClient.add_access (c : AccessControllerClient)
    (tr : Transport) (address : Pubkey) (instData : List Nat) :
    Outcome Signature × List RpcCall :=
  send_transaction tr
    { program_id := c.program_id
      accounts := [c.access_controller_data_account, c.payer, address]
      data := instData }

/-- `AccessControllerClient::remove_access`: context
`RemoveAccess { state, owner, address }`. -/
def AccessControllerClient.remove_access (c : AccessControllerClient)
    (tr : Transport) (address : Pubkey) (instData : List Nat) :
    Outcome Signature × List RpcCall :=
  send_transaction tr
    { program_id := c.program_id
      accounts := [c.access_controller_data_account, c.payer, address]
      data := instData }

/-- `AccessControllerClient::transfer_ownership`: context
`TransferOwnership { state, authority }`; the proposed owner travels in the
serialized payload `instData`. -/
def AccessControllerClient.transfer_ownership (c : AccessControllerClient)
    (tr : Transport) (instData : List Nat) : Outcome Signature × List RpcCall :=
  send_transaction tr
    { program_id := c.program_id
      accounts := [c.access_controller_data_account, c.payer]
      data := instData }

/-- `AccessControllerClient::accept_ownership`: context
`AcceptOwnership { state, authority }`. -/
def AccessControllerClient.accept_ownership (c : AccessControllerClient)
    (tr : Transport) (instData : List Nat) : Outcome Signature × List RpcCall :=
  send_transaction tr
    { program_id := c.program_id
      accounts := [c.access_controller_data_account, c.payer]
      data := instData }

/-- `VerifierAdminClient::initialize`: context `InitializeContext
{ verifier_account, owner, program, program_data, system_program }`. -/
def VerifierAdminClient.initialize_op (cfg : VerifierAdminClient)
    (tr : Transport) (pd : Pubkey) (instData : List Nat) :
    Outcome Signature × List RpcCall :=
  send_transaction tr
    { program_id := cfg.program_id
      accounts := [cfg.verifier_data_account, cfg.payer, cfg.program_id, pd,
                   system_program_id]
      data := instData }

/-- `VerifierAdminClient::init_data`: context `InitializeAccountDataContext`
with the optional access controller reference. -/
def VerifierAdminClient.init_data (cfg : VerifierAdminClient)
    (tr : Transport) (pd : Pubkey) (instData : List Nat) :
    Outcome Signature × List RpcCall :=
  send_transaction tr
    { program_id := cfg.program_id
      accounts := [cfg.verifier_data_account, cfg.payer] ++
        cfg.access_controller_data_account.toList ++
        [cfg.program_id, pd, system_program_id]
      data := instData }

/-- `VerifierAdminClient::set_access_controller`: context
`SetAccessControllerContext { verifier_account, owner, access_controller }`. -/
def VerifierAdminClient.set_access_controller (cfg : VerifierAdminClient)
    (tr : Transport) (new_access_controller : Option Pubkey)
    (instData : List Nat) : Outcome Signature × List RpcCall :=
  send_transaction tr
    { program_id := cfg.program_id
      accounts := [cfg.verifier_data_account, cfg.payer] ++
        new_access_controller.toList
      data := instData }

/-- `VerifierAdminClient::set_config` (also standing for
`set_config_with_activation_time`, `set_config_active` and
`remove_latest_config`, which share the context `UpdateConfigContext
{ verifier_account, owner }` and differ only in the serialized payload). -/
def VerifierAdminClient.set_config (cfg : VerifierAdminClient)
    (tr : Transport) (instData : List Nat) : Outcome Signature × List RpcCall :=
  send_transaction tr
    { program_id := cfg.program_id
      accounts := [cfg.verifier_data_account, cfg.payer]
      data := instData }

/-- `VerifierAdminClient::transfer_ownership`: context
`TransferOwnershipContext { verifier_account, owner }`. -/
def VerifierAdminClient.transfer_ownership (cfg : VerifierAdminClient)
    (tr : Transport) (instData : List Nat) : Outcome Signature × List RpcCall :=
  send_transaction tr
    { program_id := cfg.program_id
      accounts := [cfg.verifier_data_account, cfg.payer]
      data := instData }

/-- `VerifierAdminClient::accept_ownership`: context
`AcceptOwnershipContext { verifier_account, owner }`. -/
def VerifierAdminClient.accept_ownership (cfg : VerifierAdminClient)
    (tr : Transport) (instData : List Nat) : Outcome Signature × List RpcCall :=
  send_transaction tr
    { program_id := cfg.program_id
      accounts := [cfg.verifier_data_account, cfg.payer]
      data := instData }

/-- A transport on which every RPC request fails. -/
def trRpcDown : Transport :=
  { getAccount := .error (.transportError "rpc unreachable")
    getLatestBlockhash := .error (.transportError "rpc unreachable")
    sendAndConfirm := fun _ => .error (.transportError "rpc unreachable") }

/-- Counterexample to C4: `realloc_full_size` is a public operation, and on
a transport whose account fetch fails it panics (the `expect` in the source)
instead of returning a `Result` to the caller. -/
theorem realloc_full_size_panics_on_fetch_error :
    realloc_full_size cfgW 5 discW trRpcDown 25000 =
      (.panicked "Failed to get verifier account from RPC", [.getAccount], []) :=
  realloc_full_size_eq_expect_panic 25000 rfl

/-- C4 as amended: every operation that assembles one instruction and hands
it to `send_transaction` — both clients' initialize, add/remove access,
ownership transfer handshake, the verifier's data initialization,
access-controller update, configuration updates and single `realloc` —
returns a `Result` (`Ok` or `Err`) for every input and every transport
response.  The exceptions, which can panic, are `realloc_full_size` (failed
account fetch, or account already at full size), `read_access_controller_state`
(decode failure) and `verify` (report shorter than 32 bytes). -/
theorem single_instruction_operations_never_panic
    (c : AccessControllerClient) (cfg : VerifierAdminClient) (tr : Transport)
    (address pd : Pubkey) (new_ac : Option Pubkey) (len : Nat)
    (disc instData : List Nat) :
    (AccessControllerClient.initialize_op c tr instData).1.returnsToCaller = true ∧
    (AccessControllerClient.add_access c tr address instData).1.returnsToCaller = true ∧
    (AccessControllerClient.remove_access c tr address instData).1.returnsToCaller = true ∧
    (AccessControllerClient.transfer_ownership c tr instData).1.returnsToCaller = true ∧
    (AccessControllerClient.accept_ownership c tr instData).1.returnsToCaller = true ∧
    (VerifierAdminClient.initialize_op cfg tr pd instData).1.returnsToCaller = true ∧
    (VerifierAdminClient.init_data cfg tr pd instData).1.returnsToCaller = true ∧
    (VerifierAdminClient.set_access_controller cfg tr new_ac instData).1.returnsToCaller = true ∧
    (VerifierAdminClient.set_config cfg tr instData).1.returnsToCaller = true ∧
    (VerifierAdminClient.transfer_ownership cfg tr instData).1.returnsToCaller = true ∧
    (VerifierAdminClient.accept_ownership cfg tr instData).1.returnsToCaller = true ∧
    (realloc cfg pd disc tr len).1.returnsToCaller = true :=
  ⟨send_transaction_returns tr _, send_transaction_returns tr _,
   send_transaction_returns tr _, send_transaction_returns tr _,
   send_transaction_returns tr _, send_transaction_returns tr _,
   send_transaction_returns tr _, send_transaction_returns tr _,
   send_transaction_returns tr _, send_transaction_returns tr _,
   send_transaction_returns tr _, send_transaction_returns tr _⟩
